import Mathlib

/- A shallow embedding of the flecs-rs typed wrapper (src/src/world.rs) over the
   untyped flecs storage engine.  The engine itself and the per-world component
   registry cache (crate::cache::WorldInfoCache, register_component_typed,
   get_component_info) live outside src/, so they are modelled from the spec
   (sections 4.1 and 6); the World methods follow src/src/world.rs line by line.
   Component values are modelled as the byte buffers the engine actually stores,
   so a typed value of component type T is a byte list of T's registered size. -/

/-- Association list lookup by key; the first binding of the key wins. -/
def lookupKV {α β : Type} [DecidableEq α] (k : α) : List (α × β) → Option β
  | [] => none
  | p :: rest => if p.1 = k then some p.2 else lookupKV k rest

/-- Remove every binding of key `k`. -/
def eraseKV {α β : Type} [DecidableEq α] (k : α) : List (α × β) → List (α × β)
  | [] => []
  | p :: rest => if p.1 = k then eraseKV k rest else p :: eraseKV k rest

/-- Replace the binding of key `k` by value `v`. -/
def insertKV {α β : Type} [DecidableEq α] (k : α) (v : β) (l : List (α × β)) : List (α × β) :=
  (k, v) :: eraseKV k l

theorem lookupKV_cons {α β : Type} [DecidableEq α] (k2 : α) (p : α × β) (l : List (α × β)) :
    lookupKV k2 (p :: l) = if p.1 = k2 then some p.2 else lookupKV k2 l := rfl

theorem lookupKV_insert_self {α β : Type} [DecidableEq α] (k : α) (v : β) (l : List (α × β)) :
    lookupKV k (insertKV k v l) = some v := by
  simp [insertKV, lookupKV]

theorem lookupKV_erase_ne {α β : Type} [DecidableEq α] {k k2 : α} (h : k2 ≠ k)
    (l : List (α × β)) : lookupKV k2 (eraseKV k l) = lookupKV k2 l := by
  induction l with
  | nil => rfl
  | cons p rest ih =>
    rw [eraseKV]
    by_cases hp : p.1 = k
    · rw [if_pos hp, lookupKV_cons, if_neg (fun hk : p.1 = k2 => h (hk.symm.trans hp))]
      exact ih
    · rw [if_neg hp, lookupKV_cons, lookupKV_cons]
      by_cases hk2 : p.1 = k2
      · rw [if_pos hk2, if_pos hk2]
      · rw [if_neg hk2, if_neg hk2]
        exact ih

theorem lookupKV_insert_ne {α β : Type} [DecidableEq α] {k k2 : α} (h : k2 ≠ k) (v : β)
    (l : List (α × β)) : lookupKV k2 (insertKV k v l) = lookupKV k2 l := by
  rw [insertKV, lookupKV_cons, if_neg (fun hk : k = k2 => h hk.symm)]
  exact lookupKV_erase_ne h l

theorem lookupKV_mem {α β : Type} [DecidableEq α] {k : α} {v : β} :
    ∀ {l : List (α × β)}, lookupKV k l = some v → (k, v) ∈ l := by
  intro l
  induction l with
  | nil => intro h; simp [lookupKV] at h
  | cons p rest ih =>
    intro h
    rw [lookupKV_cons] at h
    by_cases hp : p.1 = k
    · rw [if_pos hp] at h
      have hv : p.2 = v := Option.some.inj h
      have hpkv : p = (k, v) := by
        obtain ⟨a, b⟩ := p
        simp_all
      rw [hpkv]
      exact List.mem_cons_self _ _
    · rw [if_neg hp] at h
      exact List.mem_cons_of_mem _ (ih h)

theorem values_nodup_key_eq {α β : Type} :
    ∀ {l : List (α × β)}, (l.map Prod.snd).Nodup →
    ∀ {k1 k2 : α} {v : β}, (k1, v) ∈ l → (k2, v) ∈ l → k1 = k2 := by
  intro l
  induction l with
  | nil => intro _ k1 k2 v h1; simp at h1
  | cons p rest ih =>
    intro hn k1 k2 v h1 h2
    rw [List.map_cons, List.nodup_cons] at hn
    rcases List.mem_cons.mp h1 with h1h | h1t
    · rcases List.mem_cons.mp h2 with h2h | h2t
      · exact congrArg Prod.fst (h1h.trans h2h.symm)
      · exfalso
        exact hn.1 (List.mem_map.mpr ⟨(k2, v), h2t, (congrArg Prod.snd h1h : v = p.2)⟩)
    · rcases List.mem_cons.mp h2 with h2h | h2t
      · exfalso
        exact hn.1 (List.mem_map.mpr ⟨(k1, v), h1t, (congrArg Prod.snd h2h : v = p.2)⟩)
      · exact ih hn.2 h1t h2t

/-- A byte buffer: the raw contents of one component slot. -/
abbrev Bytes := List Nat

/-- Registered layout of a component: its byte size and alignment
    (spec section 4.1, `info(world, component_id) -> \x7bsize, alignment\x7d`). -/
structure ComponentInfo where
  size : Nat
  align : Nat
deriving DecidableEq

/-- Modelled from the spec: the state of one storage-engine instance (the external
    collaborator of section 6, out of scope of src/).  `components` records the
    layout minted for each component id, `storage` the byte buffer attached per
    (entity, component) pair, `validEntities` the ids the engine reports as live,
    `names` the hierarchical path table consulted by `lookup_path`, and
    `stageIsAsync` the engine's answer to the async-stage test used on drop. -/
structure EngineState where
  nextId : Nat
  components : List (Nat × ComponentInfo)
  storage : List ((Nat × Nat) × Bytes)
  validEntities : List Nat
  names : List (Bytes × Nat)
  stageIsAsync : Bool
deriving DecidableEq

/-- Modelled from the spec: `component_info(handle, component_id)` (section 6). -/
def EngineState.componentInfo (s : EngineState) (c : Nat) : Option ComponentInfo :=
  lookupKV c s.components

/-- Modelled from the spec: `new_component(handle, size, alignment)` mints a fresh
    component id sized and aligned per the supplied layout (section 6). -/
def EngineState.newComponent (s : EngineState) (size align : Nat) : EngineState × Nat :=
  ({ s with nextId := s.nextId + 1,
            components := (s.nextId, { size := size, align := align }) :: s.components },
   s.nextId)

/-- Modelled from the spec: `get(handle, entity, component_id) -> ptr_or_null`, the
    read path (section 6); null becomes `none`. -/
def EngineState.getId (s : EngineState) (e c : Nat) : Option Bytes :=
  lookupKV (e, c) s.storage

/-- Modelled from the spec: `get_mut(handle, entity, component_id) -> ptr_or_null`
    (write, attaching if absent; section 6).  A fresh attachment is default
    (zero) initialized at the registered size; the pointer is null exactly when
    the component id is unknown to the engine. -/
def EngineState.getMutId (s : EngineState) (e c : Nat) : Option (EngineState × Bytes) :=
  match s.componentInfo c with
  | none => none
  | some info =>
    match lookupKV (e, c) s.storage with
    | some b => some (s, b)
    | none =>
      some ({ s with storage := ((e, c), List.replicate info.size 0) :: s.storage },
            List.replicate info.size 0)

/-- Overwrite the slot of `(e, c)` with the byte buffer `b` (the write-back of a
    mutable pointer obtained from `get_mut`). -/
def EngineState.setBytes (s : EngineState) (e c : Nat) (b : Bytes) : EngineState :=
  { s with storage := insertKV (e, c) b s.storage }

/-- Modelled from the spec: `new_id(handle)` mints a fresh live entity id (section 6). -/
def EngineState.newId (s : EngineState) : EngineState × Nat :=
  ({ s with nextId := s.nextId + 1, validEntities := s.nextId :: s.validEntities }, s.nextId)

/-- Modelled from the spec: `lookup_path(handle, scope, path, separators, recursive)`
    returns the id of the entity with that path, or zero when none matches (section 6). -/
def EngineState.lookupPath (s : EngineState) (name : Bytes) : Nat :=
  (lookupKV name s.names).getD 0

/-- A fresh engine instance as produced by `ecs_init`; ids start at 1 so that the
    engine never mints the reserved null id 0. -/
def EngineState.init : EngineState :=
  { nextId := 1, components := [], storage := [], validEntities := [],
    names := [], stageIsAsync := false }

/-- The static identity of a Rust component type: its `TypeId` token and the byte
    layout `size_of` / `align_of` report for it. -/
structure CompType where
  ident : String
  size : Nat
  align : Nat
deriving DecidableEq

/-- The `World` of src/src/world.rs lines 6-9: a raw engine pointer (`handle`,
    0 is null) plus the `owned` flag, together with the engine instance behind
    the pointer and the per-world registry cache attached to it. -/
structure World where
  handle : Nat
  owned : Bool
  engine : EngineState
  registry : List (String × Nat)
deriving DecidableEq

/-- `World::new` (world.rs lines 13-21): a freshly initialized owned engine. -/
def World.new (handle : Nat) : World :=
  { handle := handle, owned := true, engine := EngineState.init, registry := [] }

/-- `World::new_from` (world.rs lines 23-28): wrap an engine-supplied handle,
    borrowed, never owned. -/
def World.new_from (handle : Nat) (s : EngineState) (reg : List (String × Nat)) : World :=
  { handle := handle, owned := false, engine := s, registry := reg }

/-- Modelled from the spec: `WorldInfoCache::get_component_id_for_type` of the
    crate's cache module (not under src/): the pure registry lookup from a static
    type identity to the runtime component id (section 4.1 `lookup`). -/
def WorldInfoCache.get_component_id_for_type (w : World) (T : CompType) : Option Nat :=
  lookupKV T.ident w.registry

/-- `World::id` (world.rs lines 216-224): `Some` of the cached component id. -/
def World.id (w : World) (T : CompType) : Option Nat :=
  WorldInfoCache.get_component_id_for_type w T

/-- Modelled from the spec: `register_component_typed` of the crate's registry
    module (not under src/): return the existing id when already registered for
    this world, otherwise ask the engine to mint a fresh component id sized and
    aligned per the type's layout and record the mapping (section 4.1 `register`). -/
def register_component_typed (w : World) (T : CompType) : World × Nat :=
  match lookupKV T.ident w.registry with
  | some cid => (w, cid)
  | none =>
    let r := w.engine.newComponent T.size T.align
    ({ w with engine := r.1, registry := (T.ident, r.2) :: w.registry }, r.2)

/-- `World::component` (world.rs lines 231-234). -/
def World.component (w : World) (T : CompType) : World × Nat :=
  register_component_typed w T

/-- Modelled from the spec: `get_component_info` of the crate's registry module
    (not under src/): size and alignment recorded for a component id
    (section 4.1 `info`). -/
def get_component_info (w : World) (c : Nat) : Option ComponentInfo :=
  w.engine.componentInfo c

/-- `World::get_internal` (world.rs lines 149-155): null becomes `none`, else the
    typed reinterpretation of the stored bytes. -/
def World.get_internal (w : World) (e c : Nat) : Option Bytes :=
  w.engine.getId e c

/-- `World::get` (world.rs lines 144-147).  The outer `none` is the fatal
    `expect("Component type not registered!")`. -/
def World.get (w : World) (T : CompType) (e : Nat) : Option (Option Bytes) :=
  match WorldInfoCache.get_component_id_for_type w T with
  | none => none
  | some cid => some (w.get_internal e cid)

/-- `World::add` (world.rs lines 157-162); `ecs_add_id` attaches a default slot
    when absent.  The outer `none` is the fatal `expect`. -/
def World.add (w : World) (T : CompType) (e : Nat) : Option World :=
  match WorldInfoCache.get_component_id_for_type w T with
  | none => none
  | some cid =>
    match w.engine.getMutId e cid with
    | none => some w
    | some r => some { w with engine := r.1 }

/-- `World::set` (world.rs lines 164-169): fatal `expect` on an unregistered
    type, then `ecs_get_mut_id` (attach if absent, fatal `unwrap` on null) and an
    in-place overwrite `*dest = value`. -/
def World.set (w : World) (T : CompType) (e : Nat) (v : Bytes) : Option World :=
  match WorldInfoCache.get_component_id_for_type w T with
  | none => none
  | some cid =>
    match w.engine.getMutId e cid with
    | none => none
    | some r => some { w with engine := r.1.setBytes e cid v }

/-- `World::set_component` (world.rs lines 171-184): fatal `expect` on an unknown
    component id; `ecs_get_mut_id` attaches if absent and the destination slice is
    sized `info.size` from the registry; the bytes are copied only when
    `data.len() == dest.len()`, otherwise the write is silently dropped. -/
def World.set_component (w : World) (e c : Nat) (data : Bytes) : Option World :=
  match get_component_info w c with
  | none => none
  | some info =>
    match w.engine.getMutId e c with
    | none => none
    | some r =>
      if data.length = info.size
      then some { w with engine := r.1.setBytes e c data }
      else some { w with engine := r.1 }

/-- `World::read_component` (world.rs lines 186-204): fatal `expect` on an unknown
    component id; an invalid entity and a null read pointer are ordinary `None`;
    the returned slice is sized `info.size` from the registry. -/
def World.read_component (w : World) (e c : Nat) : Option (Option Bytes) :=
  match get_component_info w c with
  | none => none
  | some _ =>
    if e ∈ w.engine.validEntities then
      match w.engine.getId e c with
      | none => some none
      | some src => some (some src)
    else some none

/-- `World::write_component` (world.rs lines 206-214): fatal `expect` on an
    unknown component id, then the writer mutates the `info.size`-sized slice
    obtained from `ecs_get_mut_id` in place. -/
def World.write_component (w : World) (e c : Nat) (writer : Bytes → Bytes) : Option World :=
  match get_component_info w c with
  | none => none
  | some _ =>
    match w.engine.getMutId e c with
    | none => none
    | some r => some { w with engine := r.1.setBytes e c (writer r.2) }

/-- `World::component_id` (world.rs lines 226-229): the fatal-on-absent variant of
    the cache lookup; `none` is the `expect`. -/
def World.component_id (w : World) (T : CompType) : Option Nat :=
  WorldInfoCache.get_component_id_for_type w T

/-- `World::set_singleton` (world.rs lines 105-114): insert the singleton type if
    necessary, then `set` with the component's own id as the entity id. -/
def World.set_singleton (w : World) (T : CompType) (v : Bytes) : Option World :=
  let w1 := if (w.id T).isNone then (w.component T).1 else w
  match w1.id T with
  | none => none
  | some cid => w1.set T cid v

/-- `World::get_singleton_mut` (world.rs lines 117-134): insert the singleton type
    if necessary, then `ecs_get_mut_id` with the component's own id as the entity
    id; a null pointer is an ordinary `None` result.  The returned state carries
    the attach side effect and the slot the mutable reference points at. -/
def World.get_singleton_mut (w : World) (T : CompType) : Option (World × Option Bytes) :=
  let w1 := if (w.id T).isNone then (w.component T).1 else w
  match w1.id T with
  | none => none
  | some cid =>
    match w1.engine.getMutId cid cid with
    | none => some (w1, none)
    | some r => some ({ w1 with engine := r.1 }, some r.2)

/-- `World::get_singleton` (world.rs lines 137-141): fatal
    `expect("singleton entity does not exist")` on an unregistered type, then the
    read path with the component's own id as the entity id. -/
def World.get_singleton (w : World) (T : CompType) : Option (Option Bytes) :=
  match w.id T with
  | none => none
  | some cid => some (w.get_internal cid cid)

/-- `World::lookup` (world.rs lines 80-97): `CString::new(name).unwrap()` panics
    on a name holding a NUL byte (outer `none`); otherwise the engine's path
    lookup decides, with `Some` exactly for a positive id. -/
def World.lookup (w : World) (name : Bytes) : Option (Option Nat) :=
  if name.contains 0 then none
  else
    let e := w.engine.lookupPath name
    if e > 0 then some (some e) else some none

/-- The three teardown outcomes of `impl Drop for World`. -/
inductive TeardownAction where
  | asyncStageFree
  | fini
  | noop
deriving DecidableEq

/-- `impl Drop for World` (world.rs lines 292-302): an owned async stage is freed
    with `ecs_async_stage_free`, an owned world with a non-null handle with
    `ecs_fini`, and nothing happens otherwise. -/
def World.dropAction (w : World) : TeardownAction :=
  if w.owned && w.engine.stageIsAsync then TeardownAction.asyncStageFree
  else if w.owned && decide (w.handle ≠ 0) then TeardownAction.fini
  else TeardownAction.noop

/-- A world crossed the registry/engine consistency boundary correctly: cached
    component ids are pairwise distinct, each has a layout recorded in the
    engine, and each is below the engine's fresh-id counter. -/
def World.wf (w : World) : Prop :=
  (w.registry.map Prod.snd).Nodup ∧
  (∀ p ∈ w.registry, (w.engine.componentInfo p.2).isSome = true) ∧
  (∀ p ∈ w.registry, p.2 < w.engine.nextId)

instance World.wfDecidable (w : World) : Decidable w.wf :=
  inferInstanceAs (Decidable ((w.registry.map Prod.snd).Nodup ∧
    (∀ p ∈ w.registry, (w.engine.componentInfo p.2).isSome = true) ∧
    (∀ p ∈ w.registry, p.2 < w.engine.nextId)))

theorem getMutId_of_attached {s : EngineState} {e c : Nat} {b : Bytes}
    (hi : (s.componentInfo c).isSome = true) (hb : s.getId e c = some b) :
    s.getMutId e c = some (s, b) := by
  obtain ⟨info, hinfo⟩ := Option.isSome_iff_exists.mp hi
  rw [EngineState.getId] at hb
  simp [EngineState.getMutId, hinfo, hb]

theorem getMutId_of_absent {s : EngineState} {e c : Nat} {info : ComponentInfo}
    (hinfo : s.componentInfo c = some info) (hb : s.getId e c = none) :
    s.getMutId e c = some
      ({ s with storage := ((e, c), List.replicate info.size 0) :: s.storage },
       List.replicate info.size 0) := by
  rw [EngineState.getId] at hb
  simp [EngineState.getMutId, hinfo, hb]

theorem getId_setBytes_self (s : EngineState) (e c : Nat) (b : Bytes) :
    (s.setBytes e c b).getId e c = some b := by
  simp [EngineState.setBytes, EngineState.getId]
  exact lookupKV_insert_self _ _ _

theorem getId_setBytes_ne (s : EngineState) {e c e2 c2 : Nat} (h : (e2, c2) ≠ (e, c))
    (b : Bytes) : (s.setBytes e c b).getId e2 c2 = s.getId e2 c2 := by
  simp only [EngineState.setBytes, EngineState.getId]
  exact lookupKV_insert_ne h b s.storage

theorem wf_of_parts {w w2 : World} (hwf : w.wf) (hr : w2.registry = w.registry)
    (hc : w2.engine.components = w.engine.components)
    (hn : w2.engine.nextId = w.engine.nextId) : w2.wf := by
  obtain ⟨h1, h2, h3⟩ := hwf
  refine ⟨?_, ?_, ?_⟩
  · rw [hr]; exact h1
  · intro p hp
    rw [hr] at hp
    have := h2 p hp
    simp only [EngineState.componentInfo] at this ⊢
    rw [hc]
    exact this
  · intro p hp
    rw [hr] at hp
    rw [hn]
    exact h3 p hp

theorem wf_lookup_info {w : World} (hwf : w.wf) {i : String} {cid : Nat}
    (h : lookupKV i w.registry = some cid) :
    (w.engine.componentInfo cid).isSome = true :=
  hwf.2.1 _ (lookupKV_mem h)

theorem wf_lookup_lt {w : World} (hwf : w.wf) {i : String} {cid : Nat}
    (h : lookupKV i w.registry = some cid) : cid < w.engine.nextId :=
  hwf.2.2 _ (lookupKV_mem h)

theorem wf_lookup_ne {w : World} (hwf : w.wf) {i1 i2 : String} {c1 c2 : Nat}
    (h1 : lookupKV i1 w.registry = some c1) (h2 : lookupKV i2 w.registry = some c2)
    (hne : i1 ≠ i2) : c1 ≠ c2 := by
  intro he
  apply hne
  have hm2 : (i2, c1) ∈ w.registry := by rw [he]; exact lookupKV_mem h2
  exact values_nodup_key_eq hwf.1 (lookupKV_mem h1) hm2

theorem register_spec {w : World} (T : CompType) (hwf : w.wf) {w2 : World} {cid : Nat}
    (hr : register_component_typed w T = (w2, cid)) :
    w2.wf ∧ lookupKV T.ident w2.registry = some cid ∧
    (∀ k, k ≠ T.ident → lookupKV k w2.registry = lookupKV k w.registry) ∧
    w2.engine.storage = w.engine.storage := by
  rw [register_component_typed] at hr
  cases hc : lookupKV T.ident w.registry with
  | some cid0 =>
    rw [hc] at hr
    have hw2 : w2 = w := (congrArg Prod.fst hr).symm
    have hcid : cid = cid0 := (congrArg Prod.snd hr).symm
    subst hw2
    subst hcid
    exact ⟨hwf, hc, fun k _ => rfl, rfl⟩
  | none =>
    rw [hc] at hr
    simp only [EngineState.newComponent] at hr
    have hw2 : w2 = { w with
        engine := { w.engine with
          nextId := w.engine.nextId + 1,
          components := (w.engine.nextId, { size := T.size, align := T.align })
            :: w.engine.components },
        registry := (T.ident, w.engine.nextId) :: w.registry } :=
      (congrArg Prod.fst hr).symm
    have hcid : cid = w.engine.nextId := (congrArg Prod.snd hr).symm
    subst hw2
    subst hcid
    refine ⟨⟨?_, ?_, ?_⟩, ?_, ?_, rfl⟩
    · rw [List.map_cons, List.nodup_cons]
      refine ⟨?_, hwf.1⟩
      intro hmem
      obtain ⟨p, hp, hpe⟩ := List.mem_map.mp hmem
      have := hwf.2.2 p hp
      omega
    · intro p hp
      rcases List.mem_cons.mp hp with hph | hpt
      · rw [hph]
        simp only [EngineState.componentInfo, lookupKV_cons, if_pos rfl]
        rfl
      · simp only [EngineState.componentInfo, lookupKV_cons]
        by_cases he : w.engine.nextId = p.2
        · rw [if_pos he]
          rfl
        · rw [if_neg he]
          exact hwf.2.1 p hpt
    · intro p hp
      rcases List.mem_cons.mp hp with hph | hpt
      · rw [hph]
        show w.engine.nextId < w.engine.nextId + 1
        omega
      · have := hwf.2.2 p hpt
        show p.2 < w.engine.nextId + 1
        omega
    · rw [lookupKV_cons, if_pos rfl]
    · intro k hk
      rw [lookupKV_cons, if_neg (fun he : T.ident = k => hk he.symm)]

theorem getMutId_isSome {s : EngineState} {e c : Nat}
    (hi : (s.componentInfo c).isSome = true) : (s.getMutId e c).isSome = true := by
  obtain ⟨info, hinfo⟩ := Option.isSome_iff_exists.mp hi
  cases hb : lookupKV (e, c) s.storage <;> simp [EngineState.getMutId, hinfo, hb]

theorem getMutId_inv {s : EngineState} {e c : Nat} {s2 : EngineState} {b : Bytes}
    (hm : s.getMutId e c = some (s2, b)) :
    s2.components = s.components ∧ s2.nextId = s.nextId ∧
    s2.validEntities = s.validEntities ∧ s2.names = s.names ∧
    s2.stageIsAsync = s.stageIsAsync ∧
    s2.getId e c = some b ∧
    (∀ e2 c2, (e2, c2) ≠ (e, c) → s2.getId e2 c2 = s.getId e2 c2) := by
  cases hi : s.componentInfo c with
  | none => simp [EngineState.getMutId, hi] at hm
  | some info =>
    cases hb : lookupKV (e, c) s.storage with
    | some b0 =>
      simp only [EngineState.getMutId, hi, hb, Option.some.injEq, Prod.mk.injEq] at hm
      obtain ⟨h1, h2⟩ := hm
      subst h1
      subst h2
      refine ⟨rfl, rfl, rfl, rfl, rfl, ?_, fun e2 c2 _ => rfl⟩
      rw [EngineState.getId]
      exact hb
    | none =>
      simp only [EngineState.getMutId, hi, hb, Option.some.injEq, Prod.mk.injEq] at hm
      obtain ⟨h1, h2⟩ := hm
      subst h1
      subst h2
      refine ⟨rfl, rfl, rfl, rfl, rfl, ?_, ?_⟩
      · rw [EngineState.getId]
        show lookupKV (e, c) (((e, c), List.replicate info.size 0) :: s.storage) =
          some (List.replicate info.size 0)
        rw [lookupKV_cons, if_pos rfl]
      · intro e2 c2 hne
        rw [EngineState.getId, EngineState.getId]
        show lookupKV (e2, c2) (((e, c), List.replicate info.size 0) :: s.storage) =
          lookupKV (e2, c2) s.storage
        rw [lookupKV_cons, if_neg (fun he : (e, c) = (e2, c2) => hne he.symm)]

theorem set_spec {w : World} {T : CompType} {e : Nat} {v : Bytes} {cid : Nat} (hwf : w.wf)
    (hcid : lookupKV T.ident w.registry = some cid) :
    ∃ w2, w.set T e v = some w2 ∧ w2.wf ∧ w2.registry = w.registry ∧
      w2.engine.getId e cid = some v ∧
      (∀ e2 c2, (e2, c2) ≠ (e, cid) → w2.engine.getId e2 c2 = w.engine.getId e2 c2) := by
  have hinfo := wf_lookup_info hwf hcid
  have hiss : (w.engine.getMutId e cid).isSome = true := getMutId_isSome hinfo
  obtain ⟨r, hm⟩ := Option.isSome_iff_exists.mp hiss
  obtain ⟨s1, b1⟩ := r
  obtain ⟨hc1, hn1, _, _, _, hself, hframe⟩ := getMutId_inv hm
  refine ⟨{ w with engine := s1.setBytes e cid v }, ?_, ?_, rfl, ?_, ?_⟩
  · simp [World.set, WorldInfoCache.get_component_id_for_type, hcid, hm]
  · exact wf_of_parts hwf rfl hc1 hn1
  · exact getId_setBytes_self _ _ _ _
  · intro e2 c2 hne
    rw [getId_setBytes_ne _ hne _]
    exact hframe e2 c2 hne

theorem set_singleton_spec {w : World} (T : CompType) (v : Bytes) (hwf : w.wf) :
    ∃ w2 cid, w.set_singleton T v = some w2 ∧ w2.wf ∧
      lookupKV T.ident w2.registry = some cid ∧
      w2.engine.getId cid cid = some v ∧
      (∀ k, k ≠ T.ident → lookupKV k w2.registry = lookupKV k w.registry) ∧
      (∀ e2 c2, (e2, c2) ≠ (cid, cid) → w2.engine.getId e2 c2 = w.engine.getId e2 c2) := by
  cases hid : lookupKV T.ident w.registry with
  | some cid =>
    obtain ⟨w2, hset, hwf2, hreg2, hget2, hframe2⟩ := @set_spec w T cid v cid hwf hid
    refine ⟨w2, cid, ?_, hwf2, ?_, hget2, ?_, hframe2⟩
    · simp [World.set_singleton, World.id, WorldInfoCache.get_component_id_for_type, hid, hset]
    · rw [hreg2]
      exact hid
    · intro k hk
      rw [hreg2]
  | none =>
    rcases hr : register_component_typed w T with ⟨wr, cidr⟩
    obtain ⟨hwfr, hlookr, hframr, hstorr⟩ := register_spec T hwf hr
    obtain ⟨w2, hset, hwf2, hreg2, hget2, hframe2⟩ := @set_spec wr T cidr v cidr hwfr hlookr
    refine ⟨w2, cidr, ?_, hwf2, ?_, hget2, ?_, ?_⟩
    · simp [World.set_singleton, World.id, WorldInfoCache.get_component_id_for_type, hid,
        World.component, hr, hlookr, hset]
    · rw [hreg2]
      exact hlookr
    · intro k hk
      rw [hreg2]
      exact hframr k hk
    · intro e2 c2 hne
      rw [hframe2 e2 c2 hne]
      simp only [EngineState.getId, hstorr]

/-- A sample component type: a `Position` of three 32-bit floats, 12 bytes. -/
def PosT : CompType := { ident := "Position", size := 12, align := 4 }

/-- A second sample component type, distinct from `PosT`. -/
def VelT : CompType := { ident := "Velocity", size := 12, align := 4 }

/-- The layout the engine records for the sample types. -/
def info12 : ComponentInfo := { size := 12, align := 4 }

/-- A fresh world with `PosT` registered (component id 1). -/
def wPos : World := ((World.new 1).component PosT).1

/-- A small populated world: component id 1 of 12 bytes is registered and
    attached to the live entity 5 with known bytes, and the path table maps the
    one-byte name 65 to entity 7. -/
def wDemo : World :=
  { handle := 1, owned := true,
    engine := { nextId := 2, components := [(1, info12)],
                storage := [((5, 1), List.replicate 12 7)], validEntities := [5],
                names := [([65], 7)], stageIsAsync := false },
    registry := [("Position", 1)] }

/-- C7: registering a component type twice on the same world returns the same
    runtime id both times; the second registration returns the existing id and
    leaves the world untouched, so the whole (world, id) result is unchanged. -/
theorem flecs_C7_idempotent_registration (w : World) (T : CompType) :
    ((w.component T).1).component T = w.component T := by
  cases hc : lookupKV T.ident w.registry with
  | some cid =>
    simp [World.component, register_component_typed, hc]
  | none =>
    simp [World.component, register_component_typed, EngineState.newComponent, hc, lookupKV_cons]

/-- C5: on a well-formed world where component type `T` is registered, `set`
    followed by `get` on the same entity returns exactly the value written. -/
theorem flecs_C5_set_get_roundtrip (w : World) (T : CompType) (e : Nat) (v : Bytes)
    (hwf : w.wf) (hreg : (w.id T).isSome = true) :
    (w.set T e v).bind (fun w2 => w2.get T e) = some (some v) := by
  obtain ⟨cid, hcid⟩ := Option.isSome_iff_exists.mp hreg
  rw [World.id, WorldInfoCache.get_component_id_for_type] at hcid
  obtain ⟨w2, hset, _, hreg2, hget2, _⟩ := @set_spec w T e v cid hwf hcid
  simp [hset, World.get, WorldInfoCache.get_component_id_for_type, hreg2, hcid,
    World.get_internal, hget2]

/-- C5 witness: the round trip at a concrete registered world, entity and value. -/
theorem flecs_C5_witness :
    (wPos.set PosT 5 (List.replicate 12 9)).bind (fun w2 => w2.get PosT 5) =
      some (some (List.replicate 12 9)) :=
  flecs_C5_set_get_roundtrip wPos PosT 5 (List.replicate 12 9) (by decide) (by decide)

/-- C2 as stated is false at this input: on a world where the type was never
    registered, `set` aborts fatally (the `expect` panic) instead of registering
    the type and writing the value, and the registry still lacks the type. -/
theorem flecs_C2_counterexample :
    (World.new 1).set PosT 5 (List.replicate 12 9) = none ∧
    (World.new 1).id PosT = none :=
  ⟨rfl, rfl⟩

/-- C2 amended: `set` aborts fatally when the component type is unregistered;
    for a registered type it attaches the component to the entity if absent and
    overwrites the storage with the value by copy, leaving the registry as it
    was (no registration happens inside `set`). -/
theorem flecs_C2_set_requires_registration (w : World) (T : CompType) (e : Nat) (v : Bytes)
    (hwf : w.wf) :
    (w.id T = none → w.set T e v = none) ∧
    (∀ cid, w.id T = some cid →
      (w.set T e v).map (fun w2 => (w2.engine.getId e cid, w2.registry)) =
        some (some v, w.registry)) := by
  constructor
  · intro h
    rw [World.id, WorldInfoCache.get_component_id_for_type] at h
    simp [World.set, WorldInfoCache.get_component_id_for_type, h]
  · intro cid hcid
    rw [World.id, WorldInfoCache.get_component_id_for_type] at hcid
    obtain ⟨w2, hset, _, hreg2, hget2, _⟩ := @set_spec w T e v cid hwf hcid
    rw [hset]
    simp [hget2, hreg2]

/-- C2 witness: both branches of the amended claim at concrete inputs. -/
theorem flecs_C2_witness :
    (World.new 1).set PosT 5 [] = none ∧
    (wPos.set PosT 5 (List.replicate 12 9)).map
      (fun w2 => (w2.engine.getId 5 1, w2.registry)) =
      some (some (List.replicate 12 9), wPos.registry) :=
  ⟨(flecs_C2_set_requires_registration (World.new 1) PosT 5 [] (by decide)).1 rfl,
   (flecs_C2_set_requires_registration wPos PosT 5 (List.replicate 12 9) (by decide)).2
     1 (by decide)⟩

/-- C3 as stated is false at this input: `get_singleton` does not register a
    missing type; on a world where the type was never registered it aborts
    fatally (the `expect("singleton entity does not exist")` panic) instead of
    registering and returning an ordinary result. -/
theorem flecs_C3_counterexample :
    (World.new 1).id PosT = none ∧ (World.new 1).get_singleton PosT = none :=
  ⟨rfl, rfl⟩

/-- Observation on `get_singleton_mut`: it returned without a fatal abort, the
    type ended up registered, the returned slot is present, and it is exactly the
    storage addressed by the component's own id used as the entity id. -/
def singletonMutObs (w : World) (T : CompType) : Option Bool :=
  (w.get_singleton_mut T).bind (fun p =>
    (p.1.id T).map (fun cid =>
      decide (p.2.isSome = true ∧ p.2 = p.1.engine.getId cid cid)))

/-- C3 amended: `set_singleton` and `get_singleton_mut` register the type if it
    was missing and address the singleton storage by the component's own id used
    as the entity id; `get_singleton` instead aborts fatally when the type was
    never registered, and for a registered type reads the slot addressed by the
    component's own id. -/
theorem flecs_C3_singleton_registration (w : World) (T : CompType) (v : Bytes)
    (hwf : w.wf) :
    ((w.set_singleton T v).bind (fun w2 => w2.get_singleton T) = some (some v)) ∧
    (singletonMutObs w T = some true) ∧
    (w.id T = none → w.get_singleton T = none) ∧
    (∀ cid, w.id T = some cid → w.get_singleton T = some (w.engine.getId cid cid)) := by
  refine ⟨?_, ?_, ?_, ?_⟩
  · obtain ⟨w2, cid, hset, _, hlook2, hget2, _, _⟩ := set_singleton_spec T v hwf
    simp [hset, World.get_singleton, World.id, WorldInfoCache.get_component_id_for_type,
      hlook2, World.get_internal, hget2]
  · cases hid : lookupKV T.ident w.registry with
    | some cid =>
      have hinfo := wf_lookup_info hwf hid
      have hiss : (w.engine.getMutId cid cid).isSome = true := getMutId_isSome hinfo
      obtain ⟨r, hm⟩ := Option.isSome_iff_exists.mp hiss
      obtain ⟨s1, b1⟩ := r
      obtain ⟨_, _, _, _, _, hself, _⟩ := getMutId_inv hm
      simp [singletonMutObs, World.get_singleton_mut, World.id,
        WorldInfoCache.get_component_id_for_type, hid, hm, hself]
    | none =>
      rcases hr : register_component_typed w T with ⟨wr, cidr⟩
      obtain ⟨hwfr, hlookr, _, _⟩ := register_spec T hwf hr
      have hinfo := wf_lookup_info hwfr hlookr
      have hiss : (wr.engine.getMutId cidr cidr).isSome = true := getMutId_isSome hinfo
      obtain ⟨r, hm⟩ := Option.isSome_iff_exists.mp hiss
      obtain ⟨s1, b1⟩ := r
      obtain ⟨_, _, _, _, _, hself, _⟩ := getMutId_inv hm
      simp [singletonMutObs, World.get_singleton_mut, World.id, World.component,
        WorldInfoCache.get_component_id_for_type, hid, hr, hlookr, hm, hself]
  · intro h
    simp [World.get_singleton, h]
  · intro cid hcid
    simp [World.get_singleton, hcid, World.get_internal]

/-- C3 witness: each branch of the amended claim at concrete inputs, including
    the fresh unregistered world where `get_singleton` aborts. -/
theorem flecs_C3_witness :
    ((World.new 1).set_singleton PosT (List.replicate 12 3)).bind
      (fun w2 => w2.get_singleton PosT) = some (some (List.replicate 12 3)) ∧
    singletonMutObs (World.new 1) VelT = some true ∧
    (World.new 1).get_singleton PosT = none ∧
    wPos.get_singleton PosT = some (wPos.engine.getId 1 1) :=
  ⟨(flecs_C3_singleton_registration (World.new 1) PosT (List.replicate 12 3) (by decide)).1,
   (flecs_C3_singleton_registration (World.new 1) VelT [] (by decide)).2.1,
   (flecs_C3_singleton_registration (World.new 1) PosT [] (by decide)).2.2.1 rfl,
   (flecs_C3_singleton_registration wPos PosT [] (by decide)).2.2.2 1 (by decide)⟩

/-- C6: a singleton write for type `T` is returned by the next singleton read of
    `T`, and remains intact across a singleton write for a distinct type `U`:
    each singleton lives on its own component id used as the entity id, so the
    two slots are independent. -/
theorem flecs_C6_singleton_isolation (w : World) (T U : CompType) (v u : Bytes)
    (hwf : w.wf) (hTU : T.ident ≠ U.ident) :
    ((w.set_singleton T v).bind (fun w1 => w1.get_singleton T) = some (some v)) ∧
    ((w.set_singleton T v).bind (fun w1 =>
        (w1.set_singleton U u).bind (fun w2 => w2.get_singleton T)) = some (some v)) := by
  obtain ⟨w1, cidT, hset1, hwf1, hlook1, hget1, hregf1, hstof1⟩ := set_singleton_spec T v hwf
  constructor
  · simp [hset1, World.get_singleton, World.id, WorldInfoCache.get_component_id_for_type,
      hlook1, World.get_internal, hget1]
  · obtain ⟨w2, cidU, hset2, hwf2, hlook2, hget2, hregf2, hstof2⟩ := set_singleton_spec U u hwf1
    have hlookT2 : lookupKV T.ident w2.registry = some cidT := by
      rw [hregf2 T.ident hTU]
      exact hlook1
    have hne : cidT ≠ cidU := wf_lookup_ne hwf2 hlookT2 hlook2 hTU
    have hsto : w2.engine.getId cidT cidT = some v := by
      rw [hstof2 cidT cidT (fun he => hne (congrArg Prod.fst he))]
      exact hget1
    simp [hset1, hset2, World.get_singleton, World.id,
      WorldInfoCache.get_component_id_for_type, hlookT2, World.get_internal, hsto]

/-- C6 witness: the isolation property at a concrete world and two distinct
    concrete component types. -/
theorem flecs_C6_witness :
    (((World.new 1).set_singleton PosT (List.replicate 12 3)).bind
      (fun w1 => w1.get_singleton PosT) = some (some (List.replicate 12 3))) ∧
    (((World.new 1).set_singleton PosT (List.replicate 12 3)).bind (fun w1 =>
        (w1.set_singleton VelT (List.replicate 12 8)).bind
          (fun w2 => w2.get_singleton PosT)) = some (some (List.replicate 12 3))) :=
  flecs_C6_singleton_isolation (World.new 1) PosT VelT (List.replicate 12 3)
    (List.replicate 12 8) (by decide) (by decide)

/-- C1: an untyped `set_component` whose byte length differs from the registered
    size signals no error (the call completes normally) and copies nothing:
    every byte buffer stored anywhere in the world before the call — in
    particular the destination slot — still holds exactly its old bytes after. -/
theorem flecs_C1_size_mismatch_noop (w : World) (e c : Nat) (data : Bytes)
    (info : ComponentInfo) (hinfo : get_component_info w c = some info)
    (hlen : data.length ≠ info.size) :
    (w.set_component e c data).isSome = true ∧
    (∀ e2 c2 b, w.engine.getId e2 c2 = some b →
      (w.set_component e c data).map (fun w2 => w2.engine.getId e2 c2) = some (some b)) := by
  have hinfo2 : w.engine.componentInfo c = some info := hinfo
  have hiss : (w.engine.getMutId e c).isSome = true := by
    apply getMutId_isSome
    rw [hinfo2]
    rfl
  obtain ⟨r, hm⟩ := Option.isSome_iff_exists.mp hiss
  obtain ⟨s1, b1⟩ := r
  have hstep : w.set_component e c data = some { w with engine := s1 } := by
    simp [World.set_component, get_component_info, hinfo2, hm, hlen]
  obtain ⟨_, _, _, _, _, hself, hframe⟩ := getMutId_inv hm
  constructor
  · rw [hstep]
    rfl
  · intro e2 c2 b hb
    rw [hstep]
    show some (s1.getId e2 c2) = some (some b)
    by_cases he : (e2, c2) = (e, c)
    · have he1 : e2 = e := congrArg Prod.fst he
      have he2 : c2 = c := congrArg Prod.snd he
      subst he1
      subst he2
      have hatt := getMutId_of_attached (by rw [hinfo2]; rfl) hb
      rw [hatt] at hm
      have hpair := Option.some.inj hm
      have hs1 : s1 = w.engine := (congrArg Prod.fst hpair).symm
      rw [hs1]
      exact congrArg some hb
    · rw [hframe e2 c2 he]
      exact congrArg some hb

/-- C1 witness: a mismatched write on a populated world completes and the
    previously stored destination bytes survive unchanged. -/
theorem flecs_C1_witness :
    (wDemo.set_component 5 1 [1, 2]).isSome = true ∧
    (wDemo.set_component 5 1 [1, 2]).map (fun w2 => w2.engine.getId 5 1) =
      some (some (List.replicate 12 7)) :=
  ⟨(flecs_C1_size_mismatch_noop wDemo 5 1 [1, 2] info12 (by decide) (by decide)).1,
   (flecs_C1_size_mismatch_noop wDemo 5 1 [1, 2] info12 (by decide) (by decide)).2
     5 1 (List.replicate 12 7) (by decide)⟩

/-- C9: even on a size mismatch, `set_component` has already run the engine's
    attach-if-absent mutable get before comparing lengths, so afterwards the
    component is attached to the entity, holding its prior bytes or the default
    zero bytes when it was absent; the caller's bytes are never copied. -/
theorem flecs_C9_mismatch_still_attaches (w : World) (e c : Nat) (data : Bytes)
    (info : ComponentInfo) (hinfo : get_component_info w c = some info)
    (hlen : data.length ≠ info.size) :
    (w.set_component e c data).map (fun w2 => w2.engine.getId e c) =
      some (some ((w.engine.getId e c).getD (List.replicate info.size 0))) := by
  have hinfo2 : w.engine.componentInfo c = some info := hinfo
  cases hb : w.engine.getId e c with
  | some b =>
    have hm := getMutId_of_attached (by rw [hinfo2]; rfl) hb
    simp [World.set_component, get_component_info, hinfo2, hm, hlen, hb]
  | none =>
    have hm := getMutId_of_absent hinfo2 hb
    simp [World.set_component, get_component_info, hinfo2, hm, hlen,
      EngineState.getId, lookupKV_cons]

/-- C9 witness: a mismatched write addressed at an entity that lacked the
    component leaves the component attached with default zero bytes. -/
theorem flecs_C9_witness :
    (wDemo.set_component 8 1 [1, 2]).map (fun w2 => w2.engine.getId 8 1) =
      some (some (List.replicate 12 0)) := by
  have h := flecs_C9_mismatch_still_attaches wDemo 8 1 [1, 2] info12 (by decide) (by decide)
  rw [h]
  rfl

/-- C4: every typed accessor aborts fatally when the component type was never
    registered; every untyped accessor aborts fatally on an unknown component
    id, but treats an invalid entity or an entity lacking the component as an
    ordinary absent or no-op result rather than an error. -/
theorem flecs_C4_failure_semantics (w : World) (T : CompType) (e c : Nat)
    (v data : Bytes) (f : Bytes → Bytes) :
    (w.id T = none →
      w.get T e = none ∧ w.add T e = none ∧ w.set T e v = none ∧
      w.component_id T = none) ∧
    (get_component_info w c = none →
      w.set_component e c data = none ∧ w.read_component e c = none ∧
      w.write_component e c f = none) ∧
    (∀ info, get_component_info w c = some info →
      (w.set_component e c data).isSome = true ∧
      (w.write_component e c f).isSome = true ∧
      (e ∉ w.engine.validEntities → w.read_component e c = some none) ∧
      (w.engine.getId e c = none → w.read_component e c = some none)) := by
  refine ⟨?_, ?_, ?_⟩
  · intro h
    rw [World.id, WorldInfoCache.get_component_id_for_type] at h
    exact ⟨by simp [World.get, WorldInfoCache.get_component_id_for_type, h],
      by simp [World.add, WorldInfoCache.get_component_id_for_type, h],
      by simp [World.set, WorldInfoCache.get_component_id_for_type, h],
      by simp [World.component_id, WorldInfoCache.get_component_id_for_type, h]⟩
  · intro h
    have h2 : w.engine.componentInfo c = none := h
    exact ⟨by simp [World.set_component, get_component_info, h2],
      by simp [World.read_component, get_component_info, h2],
      by simp [World.write_component, get_component_info, h2, EngineState.getMutId]⟩
  · intro info hinfo
    have hinfo2 : w.engine.componentInfo c = some info := hinfo
    have hiss : (w.engine.getMutId e c).isSome = true := by
      apply getMutId_isSome
      rw [hinfo2]
      rfl
    obtain ⟨r, hm⟩ := Option.isSome_iff_exists.mp hiss
    obtain ⟨s1, b1⟩ := r
    refine ⟨?_, ?_, ?_, ?_⟩
    · rcases eq_or_ne data.length info.size with hl | hl <;>
        simp [World.set_component, get_component_info, hinfo2, hm, hl]
    · simp [World.write_component, get_component_info, hinfo2, hm]
    · intro hv
      simp [World.read_component, get_component_info, hinfo2, hv]
    · intro hn
      by_cases hv : e ∈ w.engine.validEntities <;>
        simp [World.read_component, get_component_info, hinfo2, hv, hn]

/-- C4 witness: the fatal branches at a fresh world with nothing registered, and
    the absent/no-op branches at a populated world, using the invalid entity 9
    that also lacks the component. -/
theorem flecs_C4_witness :
    ((World.new 1).get PosT 5 = none ∧ (World.new 1).add PosT 5 = none ∧
      (World.new 1).set PosT 5 [] = none ∧ (World.new 1).component_id PosT = none) ∧
    ((World.new 1).set_component 5 3 [] = none ∧ (World.new 1).read_component 5 3 = none ∧
      (World.new 1).write_component 5 3 (fun b => b) = none) ∧
    ((wDemo.set_component 9 1 [1]).isSome = true ∧
      (wDemo.write_component 9 1 (fun b => b)).isSome = true ∧
      wDemo.read_component 9 1 = some none) :=
  ⟨(flecs_C4_failure_semantics (World.new 1) PosT 5 3 [] [] (fun b => b)).1 rfl,
   (flecs_C4_failure_semantics (World.new 1) PosT 5 3 [] [] (fun b => b)).2.1 rfl,
   ((flecs_C4_failure_semantics wDemo PosT 9 1 [] [1] (fun b => b)).2.2 info12
       (by decide)).1,
   ((flecs_C4_failure_semantics wDemo PosT 9 1 [] [1] (fun b => b)).2.2 info12
       (by decide)).2.1,
   ((flecs_C4_failure_semantics wDemo PosT 9 1 [] [1] (fun b => b)).2.2 info12
       (by decide)).2.2.1 (by decide)⟩

/-- C10: `lookup` panics exactly on a name holding a NUL byte (the unwrapped
    `CString` conversion); for a NUL-free name it returns `Some` exactly when
    the engine's path lookup yields a positive id, and `None` otherwise. -/
theorem flecs_C10_lookup_nul_panics (w : World) (name : Bytes) :
    (w.lookup name = none ↔ name.contains 0 = true) ∧
    (∀ ent, w.lookup name = some (some ent) ↔
      (name.contains 0 = false ∧ w.engine.lookupPath name = ent ∧ 0 < ent)) ∧
    (w.lookup name = some none ↔
      (name.contains 0 = false ∧ w.engine.lookupPath name = 0)) := by
  have hval : w.lookup name =
      if name.contains 0 then none
      else if 0 < w.engine.lookupPath name then some (some (w.engine.lookupPath name))
      else some none := rfl
  by_cases hz : name.contains 0 = true
  · rw [hval, if_pos hz]
    refine ⟨⟨fun _ => hz, fun _ => rfl⟩, ?_, ?_⟩
    · intro ent
      constructor
      · intro h
        exact absurd h (by simp)
      · intro h
        rw [h.1] at hz
        exact absurd hz (by simp)
    · constructor
      · intro h
        exact absurd h (by simp)
      · intro h
        rw [h.1] at hz
        exact absurd hz (by simp)
  · have hzf : name.contains 0 = false := by
      cases h2 : name.contains 0
      · rfl
      · exact absurd h2 hz
    rw [hval, if_neg hz]
    by_cases hp : 0 < w.engine.lookupPath name
    · rw [if_pos hp]
      refine ⟨?_, ?_, ?_⟩
      · constructor
        · intro h
          exact absurd h (by simp)
        · intro h
          rw [h] at hzf
          exact absurd hzf (by simp)
      · intro ent
        constructor
        · intro h
          have he : w.engine.lookupPath name = ent := Option.some.inj (Option.some.inj h)
          exact ⟨hzf, he, he ▸ hp⟩
        · intro h
          rw [h.2.1]
      · constructor
        · intro h
          exact absurd (Option.some.inj h) (by simp)
        · intro h
          rw [h.2] at hp
          exact absurd hp (by simp)
    · rw [if_neg hp]
      have hp0 : w.engine.lookupPath name = 0 := Nat.eq_zero_of_not_pos hp
      refine ⟨?_, ?_, ?_⟩
      · constructor
        · intro h
          exact absurd h (by simp)
        · intro h
          rw [h] at hzf
          exact absurd hzf (by simp)
      · intro ent
        constructor
        · intro h
          exact absurd (Option.some.inj h) (by simp)
        · intro h
          rw [h.2.1] at hp
          exact absurd h.2.2 hp
      · exact ⟨fun _ => ⟨hzf, hp0⟩, fun _ => rfl⟩

/-- C10 witness: the panic on a NUL name, a found name, and a missing name, all
    on a concrete populated world. -/
theorem flecs_C10_witness :
    wDemo.lookup [0] = none ∧ wDemo.lookup [65] = some (some 7) ∧
    wDemo.lookup [66] = some none :=
  ⟨(flecs_C10_lookup_nul_panics wDemo [0]).1.mpr (by decide),
   ((flecs_C10_lookup_nul_panics wDemo [65]).2.1 7).mpr (by decide),
   (flecs_C10_lookup_nul_panics wDemo [66]).2.2.mpr (by decide)⟩

/-- This world claims handle `hdl` as its own. -/
def ownsHandle (hdl : Nat) (w : World) : Bool :=
  decide (w.handle = hdl) && w.owned

/-- Dropping this world runs the normal engine finalizer on handle `hdl`. -/
def finalizesHandle (hdl : Nat) (w : World) : Bool :=
  decide (w.handle = hdl) && decide (w.dropAction = TeardownAction.fini)

theorem dropAction_fini_inv {w : World} (h : w.dropAction = TeardownAction.fini) :
    w.owned = true ∧ w.engine.stageIsAsync = false ∧ w.handle ≠ 0 := by
  rw [World.dropAction] at h
  by_cases h1 : (w.owned && w.engine.stageIsAsync) = true
  · rw [if_pos h1] at h
    exact absurd h (by simp)
  · rw [if_neg h1] at h
    by_cases h2 : (w.owned && decide (w.handle ≠ 0)) = true
    · rw [if_pos h2] at h
      simp only [Bool.and_eq_true, decide_eq_true_eq] at h1 h2
      refine ⟨h2.1, ?_, h2.2⟩
      cases ha : w.engine.stageIsAsync
      · rfl
      · exact absurd ⟨h2.1, ha⟩ h1
    · rw [if_neg h2] at h
      exact absurd h (by simp)

theorem countP_mono_of_imp {α : Type} {p q : α → Bool}
    (h : ∀ x, p x = true → q x = true) : ∀ l : List α, l.countP p ≤ l.countP q := by
  intro l
  induction l with
  | nil => simp
  | cons a t ih =>
    rw [List.countP_cons, List.countP_cons]
    by_cases ha : p a = true
    · rw [if_pos ha, if_pos (h a ha)]
      omega
    · rw [if_neg ha]
      by_cases hq : q a = true
      · rw [if_pos hq]
        omega
      · rw [if_neg hq]
        omega

/-- C8: a borrowed world (`new_from`) never runs any teardown on drop; only an
    owned world triggers teardown, an owned async stage via the stage-free call
    rather than the normal finalizer; hence among any collection of worlds with
    at most one owner per engine handle, at most one world finalizes that
    handle. -/
theorem flecs_C8_drop_ownership (hdl : Nat) (s : EngineState) (reg : List (String × Nat))
    (w : World) (ws : List World) :
    (World.new_from hdl s reg).dropAction = TeardownAction.noop ∧
    (w.dropAction = TeardownAction.fini →
      w.owned = true ∧ w.engine.stageIsAsync = false ∧ w.handle ≠ 0) ∧
    (w.owned = true → w.engine.stageIsAsync = true →
      w.dropAction = TeardownAction.asyncStageFree) ∧
    (ws.countP (ownsHandle hdl) ≤ 1 → ws.countP (finalizesHandle hdl) ≤ 1) := by
  refine ⟨?_, fun h => dropAction_fini_inv h, ?_, ?_⟩
  · simp [World.new_from, World.dropAction]
  · intro ho ha
    simp [World.dropAction, ho, ha]
  · intro hcnt
    refine le_trans (countP_mono_of_imp ?_ ws) hcnt
    intro x hx
    rw [finalizesHandle, Bool.and_eq_true, decide_eq_true_eq, decide_eq_true_eq] at hx
    rw [ownsHandle, Bool.and_eq_true, decide_eq_true_eq]
    exact ⟨hx.1, (dropAction_fini_inv hx.2).1⟩

/-- An owned world whose handle the engine reports as an async stage. -/
def wAsync : World :=
  { handle := 1, owned := true,
    engine := { EngineState.init with stageIsAsync := true }, registry := [] }

/-- C8 witness: concrete worlds exercising the borrowed, owned-fini, owned-async
    and counting branches. -/
theorem flecs_C8_witness :
    ((World.new 1).owned = true ∧ (World.new 1).engine.stageIsAsync = false ∧
      (World.new 1).handle ≠ 0) ∧
    wAsync.dropAction = TeardownAction.asyncStageFree ∧
    [World.new 1,
      World.new_from 1 EngineState.init []].countP (finalizesHandle 1) ≤ 1 :=
  ⟨(flecs_C8_drop_ownership 1 EngineState.init [] (World.new 1) []).2.1 (by decide),
   (flecs_C8_drop_ownership 1 EngineState.init [] wAsync []).2.2.1 rfl rfl,
   (flecs_C8_drop_ownership 1 EngineState.init [] (World.new 1)
     [World.new 1, World.new_from 1 EngineState.init []]).2.2.2 (by decide)⟩
